import Mathlib

/-!
Shallow embedding of the jigsaw countdown timer: the class `JigsawPuzzle` in
`src/lib/jigsaw.ts` and the construction performed by `src/routes/timer/+page.svelte`.

Modelling conventions:
* JavaScript numbers are modelled as rationals (`ℚ`).
* `Math.random()` draws are modelled as explicit oracle functions supplied as arguments
  (`rnd` for the scatter draws, `draw` for the Fisher–Yates draws, already multiplied
  out and floored where the source does so).
* Canvas bitmaps carry no pixel data in the model; each piece's bitmap is identified by
  the row-major cell index it was cut from (field `canvas`).
* A frame of `animate` is a pure function from the pre-frame state and the elapsed time
  to the post-frame state, the list of draw commands still visible when the frame ends
  (i.e. issued after the last `clearRect`), and whether a next frame was scheduled.
-/

/-- `easeInOutCubic` from jigsaw.ts:
`t < 0.5 ? 4 * t * t * t : 1 - Math.pow(-2 * t + 2, 3) / 2`. -/
def easeInOutCubic (t : ℚ) : ℚ :=
  if t < 1/2 then 4 * t * t * t else 1 - (-2 * t + 2) ^ 3 / 2

/-- The progress computation in `animate`:
`Math.min(pieceElapsed / pieceMoveDuration, 1)`.  Note the source clamps only from
above; there is no lower clamp at 0. -/
def animProgress (pieceMoveDuration pieceElapsed : ℚ) : ℚ :=
  min (pieceElapsed / pieceMoveDuration) 1

/-- JavaScript truncation toward zero, as used by the float `%` operator. -/
def jsTrunc (q : ℚ) : ℤ :=
  if q < 0 then -⌊-q⌋ else ⌊q⌋

/-- The JavaScript `%` operator on numbers: `a % b = a - b * trunc(a / b)`. -/
def jsMod (a b : ℚ) : ℚ :=
  a - b * jsTrunc (a / b)

/-- `String.padStart(2, '0')`. -/
def padStart2 (s : String) : String :=
  if 2 ≤ s.length then s else if s.length = 1 then "0" ++ s else "00"

/-- `updateTimer(elapsed)` from jigsaw.ts: the text assigned to the timer element.
`remaining = Math.max(0, totalDuration - elapsed)`, `minutes = Math.floor(remaining / 60000)`,
`seconds = Math.floor((remaining % 60000) / 1000)`, text `minutes + ":" + padStart(2)`. -/
def updateTimer (totalDuration elapsed : ℚ) : String :=
  let remaining := max 0 (totalDuration - elapsed)
  let minutes := ⌊remaining / 60000⌋
  let seconds := ⌊jsMod remaining 60000 / 1000⌋
  toString minutes ++ ":" ++ padStart2 (toString seconds)

/-- The numeric reading (in whole seconds) of the countdown text:
`60 * minutes + seconds` with `minutes`/`seconds` exactly as `updateTimer` computes them. -/
def countdownValue (totalDuration elapsed : ℚ) : ℤ :=
  let remaining := max 0 (totalDuration - elapsed)
  60 * ⌊remaining / 60000⌋ + ⌊jsMod remaining 60000 / 1000⌋

/-- The countdown formula exactly as §4.6 of the specification words it, with the
mathematical `mod` (for nonnegative `remaining`, `remaining mod 60000 =
remaining - 60000 * ⌊remaining / 60000⌋`).  Written independently of `updateTimer`
so that the two can be compared. -/
def specCountdown (totalDuration elapsed : ℚ) : String :=
  let remaining := max 0 (totalDuration - elapsed)
  let minutes := ⌊remaining / 60000⌋
  let seconds := ⌊(remaining - 60000 * ⌊remaining / 60000⌋) / 1000⌋
  toString minutes ++ ":" ++ padStart2 (toString seconds)

/-- `calculateScaleFactor`:
`Math.min(maxWidth / image.width, maxHeight / image.height, 1)`. -/
def calculateScaleFactor (maxWidth maxHeight imgWidth imgHeight : ℚ) : ℚ :=
  min (maxWidth / imgWidth) (min (maxHeight / imgHeight) 1)

/-- One entry of `this.pieces` (interface `JigsawPiece`); `canvas` identifies the
piece's private bitmap by the row-major cell index it was sampled from. -/
structure JigsawPiece where
  canvas : ℕ
  originalX : ℚ
  originalY : ℚ
  currentX : ℚ
  currentY : ℚ
  width : ℚ
  height : ℚ
  solved : Bool
  rotation : ℚ
  deriving DecidableEq, Inhabited

/-- The piece pushed by one iteration of the `createPuzzlePieces` loop body for cell
`(row, col)`: `scaledPieceWidth = (image.width / cols) * scaleFactor`, home position
`(col * scaledPieceWidth, row * scaledPieceHeight)`; `currentX/currentY` start at the
home position and `solved = false`, `rotation = 0`. -/
def cellPiece (imgWidth imgHeight : ℚ) (rows cols : ℕ) (scaleFactor : ℚ)
    (row col : ℕ) : JigsawPiece :=
  let scaledPieceWidth := imgWidth / cols * scaleFactor
  let scaledPieceHeight := imgHeight / rows * scaleFactor
  { canvas := row * cols + col
    originalX := (col : ℚ) * scaledPieceWidth
    originalY := (row : ℚ) * scaledPieceHeight
    currentX := (col : ℚ) * scaledPieceWidth
    currentY := (row : ℚ) * scaledPieceHeight
    width := scaledPieceWidth
    height := scaledPieceHeight
    solved := false
    rotation := 0 }

/-- `createPuzzlePieces`: the double loop over `row < rows`, `col < cols`, pushing
one piece per cell in row-major order. -/
def createPuzzlePieces (imgWidth imgHeight : ℚ) (rows cols : ℕ) (scaleFactor : ℚ) :
    List JigsawPiece :=
  (List.range rows).flatMap fun row =>
    (List.range cols).map fun col =>
      cellPiece imgWidth imgHeight rows cols scaleFactor row col

/-- `shufflePieces`: for each piece,
`currentX = random * (canvasWidth * 1.5) - canvasWidth * 0.25` (similarly `currentY`)
and `rotation = (random * 2 - 1) * maxRotation`; `rnd i` supplies the three
`Math.random()` results used for piece `i`. -/
def shufflePieces (pieces : List JigsawPiece) (canvasWidth canvasHeight maxRotation : ℚ)
    (rnd : ℕ → ℚ × ℚ × ℚ) : List JigsawPiece :=
  pieces.mapIdx fun i p =>
    { p with
      currentX := (rnd i).1 * (canvasWidth * 1.5) - canvasWidth * 0.25
      currentY := (rnd i).2.1 * (canvasHeight * 1.5) - canvasHeight * 0.25
      rotation := ((rnd i).2.2 * 2 - 1) * maxRotation }

/-- The destructuring swap in `setupSolvingOrder`:
`[a[i], a[j]] = [a[j], a[i]]`. -/
def swapEntries (l : List ℕ) (i j : ℕ) : List ℕ :=
  (l.set i (l.getD j 0)).set j (l.getD i 0)

/-- The loop of `setupSolvingOrder`: `for (i = length-1; i > 0; i--) swap(i, draw i)`,
where `draw i` models `Math.floor(Math.random() * (i + 1))` (so `draw i ≤ i`). -/
def fisherYatesLoop (draw : ℕ → ℕ) : ℕ → List ℕ → List ℕ
  | 0, l => l
  | i + 1, l => fisherYatesLoop draw i (swapEntries l (i + 1) (draw (i + 1)))

/-- `setupSolvingOrder` (the permutation part): build `[0, …, n-1]` and run the
Fisher–Yates loop from index `n - 1` down to `1`. -/
def setupSolvingOrder (draw : ℕ → ℕ) (n : ℕ) : List ℕ :=
  fisherYatesLoop draw (n - 1) (List.range n)

/-- The mutable fields of the `JigsawPuzzle` instance that the animation reads and
writes each frame. -/
structure PuzzleState where
  pieces : List JigsawPiece
  solvingOrder : List ℕ
  currentSolvingIndex : ℕ
  pieceMoveDuration : ℚ
  totalDuration : ℚ
  timerText : String
  deriving DecidableEq, Inhabited

/-- A draw command: which bitmap is drawn, the top-left coordinate it is drawn at,
and the rotation (degrees) applied about its centre.  A plain `drawImage(c, x, y)`
is a rotated draw with rotation 0. -/
structure DrawCmd where
  canvas : ℕ
  x : ℚ
  y : ℚ
  rotation : ℚ
  deriving DecidableEq, Inhabited

/-- One draw of the all-pieces pass in `animate`: a solved piece is drawn with
`drawImage` at `(originalX, originalY)` (no transform); an unsolved one with
`drawRotatedImage` at `(currentX, currentY, rotation)`. -/
def generalDraw (p : JigsawPiece) : DrawCmd :=
  if p.solved then ⟨p.canvas, p.originalX, p.originalY, 0⟩
  else ⟨p.canvas, p.currentX, p.currentY, p.rotation⟩

/-- What one `animate` call produces: the post-frame state, the draw commands still
visible when the frame ends (those issued after the last `clearRect` of the frame),
and whether `requestAnimationFrame` was called again. -/
structure FrameResult where
  state : PuzzleState
  draws : List DrawCmd
  scheduleNext : Bool
  deriving DecidableEq, Inhabited

/-- `animate(currentTime)` with `elapsed = currentTime - animationStartTime`:
update the timer text, clear and redraw every piece, then, if
`currentSolvingIndex < solvingOrder.length`, draw the active piece at its eased
interpolated transform and, when `progress >= 1`, mark it solved, zero its rotation
and advance `currentSolvingIndex`; finally either schedule the next frame
(`elapsed < totalDuration`) or stop, force the timer to `updateTimer(totalDuration)`,
clear once more and draw every piece at its home position. -/
def animate (s : PuzzleState) (elapsed : ℚ) : FrameResult :=
  let timerText1 := updateTimer s.totalDuration elapsed
  let generalDraws := s.pieces.map generalDraw
  let step : List JigsawPiece × ℕ × List DrawCmd :=
    if s.currentSolvingIndex < s.solvingOrder.length then
      let currentPieceIndex := s.solvingOrder.getD s.currentSolvingIndex 0
      let piece := s.pieces.getD currentPieceIndex default
      let pieceElapsed := elapsed - (s.currentSolvingIndex : ℚ) * s.pieceMoveDuration
      let progress := animProgress s.pieceMoveDuration pieceElapsed
      let easedProgress := easeInOutCubic progress
      let activeDraw : DrawCmd :=
        ⟨piece.canvas,
         piece.currentX + (piece.originalX - piece.currentX) * easedProgress,
         piece.currentY + (piece.originalY - piece.currentY) * easedProgress,
         piece.rotation + (0 - piece.rotation) * easedProgress⟩
      if 1 ≤ progress then
        (s.pieces.set currentPieceIndex { piece with solved := true, rotation := 0 },
         s.currentSolvingIndex + 1, [activeDraw])
      else
        (s.pieces, s.currentSolvingIndex, [activeDraw])
    else (s.pieces, s.currentSolvingIndex, [])
  if elapsed < s.totalDuration then
    { state := { s with pieces := step.1, currentSolvingIndex := step.2.1,
                        timerText := timerText1 }
      draws := generalDraws ++ step.2.2
      scheduleNext := true }
  else
    { state := { s with pieces := step.1, currentSolvingIndex := step.2.1,
                        timerText := updateTimer s.totalDuration s.totalDuration }
      draws := step.1.map fun p => ⟨p.canvas, p.originalX, p.originalY, 0⟩
      scheduleNext := false }

/-- Iterating `animate` over a list of elapsed times, threading the state. -/
def runFrames (s : PuzzleState) : List ℚ → PuzzleState
  | [] => s
  | e :: es => runFrames (animate s e).state es

/-- The `init()` pipeline: compute the scale factor, set up the canvas
(`canvasWidth = imgWidth * scaleFactor`), slice the pieces, scatter them, build the
solving order and set `pieceMoveDuration = totalDuration / pieces.length`;
`currentSolvingIndex` starts at 0. -/
def initState (imgWidth imgHeight : ℚ) (rows cols : ℕ)
    (totalDuration maxRotation maxWidth maxHeight : ℚ)
    (rnd : ℕ → ℚ × ℚ × ℚ) (draw : ℕ → ℕ) : PuzzleState :=
  let scaleFactor := calculateScaleFactor maxWidth maxHeight imgWidth imgHeight
  let canvasWidth := imgWidth * scaleFactor
  let canvasHeight := imgHeight * scaleFactor
  let pieces0 := createPuzzlePieces imgWidth imgHeight rows cols scaleFactor
  let pieces := shufflePieces pieces0 canvasWidth canvasHeight maxRotation rnd
  { pieces := pieces
    solvingOrder := setupSolvingOrder draw pieces.length
    currentSolvingIndex := 0
    pieceMoveDuration := totalDuration / (pieces.length : ℚ)
    totalDuration := totalDuration
    timerText := "" }

/-- The progress value `animate` computes for the active piece of state `s` at a given
elapsed time. -/
def pieceProgress (s : PuzzleState) (elapsed : ℚ) : ℚ :=
  animProgress s.pieceMoveDuration
    (elapsed - (s.currentSolvingIndex : ℚ) * s.pieceMoveDuration)

/-- Piece `i` is "active" in state `s` at a given elapsed time: it is the piece the
frame would animate (`solvingOrder[currentSolvingIndex]`) and its progress lies
strictly between 0 and 1. -/
def isActivePiece (s : PuzzleState) (elapsed : ℚ) (i : ℕ) : Prop :=
  s.currentSolvingIndex < s.solvingOrder.length ∧
  i = s.solvingOrder.getD s.currentSolvingIndex 0 ∧
  0 < pieceProgress s elapsed ∧ pieceProgress s elapsed < 1

/-- Well-formedness of the solving order relative to the piece list: it is a
permutation of the index range `0..pieces.length-1`, which `setupSolvingOrder`
establishes and no frame ever changes. -/
def OrderOk (s : PuzzleState) : Prop :=
  s.solvingOrder.Perm (List.range s.pieces.length)

/-- The solved-partition invariant claimed for every reachable state: a piece is
solved exactly when its position in the solving order is strictly before
`currentSolvingIndex`. -/
def SolvedInv (s : PuzzleState) : Prop :=
  ∀ k, k < s.solvingOrder.length →
    ((s.pieces.getD (s.solvingOrder.getD k 0) default).solved = true ↔
      k < s.currentSolvingIndex)

/-- A JavaScript value as far as line 17 of `+page.svelte` is concerned: a number
(`num (some n)`; `num none` is NaN) or `null`/`undefined` (`nullv`). -/
inductive JSVal where
  | num : Option ℤ → JSVal
  | nullv : JSVal
  deriving DecidableEq

/-- The digit-prefix scan of `parseInt`: consume decimal digits, returning `none`
when no digit was consumed at all. -/
def parseDigits : List Char → Option ℕ → Option ℕ
  | [], acc => acc
  | c :: cs, acc =>
    if c.isDigit then parseDigits cs (some ((acc.getD 0) * 10 + (c.toNat - 48)))
    else acc

/-- `parseInt` on a string: skip leading spaces, accept an optional sign, then the
longest digit prefix; NaN (`none`) when no digits follow. -/
def jsParseIntString (s : String) : Option ℤ :=
  let cs := s.data.dropWhile fun c => c = ' '
  match cs with
  | '-' :: rest => (parseDigits rest none).map fun n => -(n : ℤ)
  | '+' :: rest => (parseDigits rest none).map fun n => (n : ℤ)
  | rest => (parseDigits rest none).map fun n => (n : ℤ)

/-- `parseInt(urlParams.get('minutes'))`: `URLSearchParams.get` returns `null` when
the parameter is missing, and `parseInt` coerces that `null` to the string `"null"`;
the result is always a number (possibly NaN), never `null`. -/
def jsParseInt (arg : Option String) : JSVal :=
  match arg with
  | none => JSVal.num (jsParseIntString "null")
  | some s => JSVal.num (jsParseIntString s)

/-- The `??` (nullish coalescing) operator: yields the right operand only when the
left is `null`/`undefined`; NaN is not nullish. -/
def jsNullish (a b : JSVal) : JSVal :=
  match a with
  | JSVal.nullv => b
  | v => v

/-- `const minutes = parseInt(urlParams.get('minutes')) ?? 2` from `+page.svelte`. -/
def pageMinutes (minutesParam : Option String) : JSVal :=
  jsNullish (jsParseInt minutesParam) (JSVal.num (some 2))

/-- `totalDuration: minutes * 60000` as passed to the `Jigsaw` constructor; NaN
propagates through multiplication (`null` would coerce to 0, but `minutes` is never
`null`). -/
def pageTotalDuration (minutesParam : Option String) : JSVal :=
  match pageMinutes minutesParam with
  | JSVal.num (some n) => JSVal.num (some (n * 60000))
  | JSVal.num none => JSVal.num none
  | JSVal.nullv => JSVal.num (some 0)

/-! ## Helper lemmas -/

theorem jsTrunc_of_nonneg {q : ℚ} (h : 0 ≤ q) : jsTrunc q = ⌊q⌋ := by
  simp [jsTrunc, not_lt.mpr h]

theorem jsMod_of_nonneg {a : ℚ} (b : ℚ) (h : 0 ≤ a) (hb : 0 ≤ b) :
    jsMod a b = a - b * ⌊a / b⌋ := by
  unfold jsMod
  rw [jsTrunc_of_nonneg (div_nonneg h hb)]

/-! ## C5 -/

/-- C5: for positive image dimensions and positive max box, the scale factor equals
`min(maxWidth/imgWidth, maxHeight/imgHeight, 1)`, lies in `(0, 1]`, and the scaled
dimensions `imgWidth * scaleFactor`, `imgHeight * scaleFactor` never exceed the box
(so the image is never enlarged beyond native resolution). -/
theorem calculateScaleFactor_bounds (maxW maxH w h : ℚ)
    (hw : 0 < w) (hh : 0 < h) (hmw : 0 < maxW) (hmh : 0 < maxH) :
    calculateScaleFactor maxW maxH w h = min (maxW / w) (min (maxH / h) 1) ∧
    0 < calculateScaleFactor maxW maxH w h ∧
    calculateScaleFactor maxW maxH w h ≤ 1 ∧
    w * calculateScaleFactor maxW maxH w h ≤ maxW ∧
    h * calculateScaleFactor maxW maxH w h ≤ maxH := by
  unfold calculateScaleFactor
  refine ⟨rfl, ?_, ?_, ?_, ?_⟩
  · exact lt_min (div_pos hmw hw) (lt_min (div_pos hmh hh) one_pos)
  · exact le_trans (min_le_right _ _) (min_le_right _ _)
  · have h1 : min (maxW / w) (min (maxH / h) 1) ≤ maxW / w := min_le_left _ _
    calc w * min (maxW / w) (min (maxH / h) 1) ≤ w * (maxW / w) := by
          exact mul_le_mul_of_nonneg_left h1 (le_of_lt hw)
      _ = maxW := by field_simp
  · have h1 : min (maxW / w) (min (maxH / h) 1) ≤ maxH / h :=
      le_trans (min_le_right _ _) (min_le_left _ _)
    calc h * min (maxW / w) (min (maxH / h) 1) ≤ h * (maxH / h) := by
          exact mul_le_mul_of_nonneg_left h1 (le_of_lt hh)
      _ = maxH := by field_simp

/-- Witness for C5 at `maxW = 5`, `maxH = 7`, `w = 10`, `h = 2`. -/
theorem calculateScaleFactor_bounds_witness :
    (0 : ℚ) < 10 ∧ (0 : ℚ) < 2 ∧ (0 : ℚ) < 5 ∧ (0 : ℚ) < 7 ∧
    (calculateScaleFactor 5 7 10 2 = min ((5 : ℚ) / 10) (min ((7 : ℚ) / 2) 1) ∧
     0 < calculateScaleFactor 5 7 10 2 ∧
     calculateScaleFactor 5 7 10 2 ≤ 1 ∧
     10 * calculateScaleFactor 5 7 10 2 ≤ 5 ∧
     2 * calculateScaleFactor 5 7 10 2 ≤ 7) :=
  ⟨by norm_num, by norm_num, by norm_num, by norm_num,
   calculateScaleFactor_bounds 5 7 10 2 (by norm_num) (by norm_num) (by norm_num)
     (by norm_num)⟩

/-! ## C7 -/

/-- C7: the easing function is `4t³` for `t < 1/2` and `1 - (-2t+2)³/2` otherwise;
on `[0,1]` its values stay in `[0,1]`, it is monotone non-decreasing there, and
`f 0 = 0`, `f (1/2) = 1/2`, `f 1 = 1`. -/
theorem easeInOutCubic_spec :
    (∀ t : ℚ, easeInOutCubic t =
      if t < 1/2 then 4 * t ^ 3 else 1 - (-2 * t + 2) ^ 3 / 2) ∧
    (∀ t : ℚ, 0 ≤ t → t ≤ 1 → 0 ≤ easeInOutCubic t ∧ easeInOutCubic t ≤ 1) ∧
    (∀ s t : ℚ, 0 ≤ s → s ≤ t → t ≤ 1 → easeInOutCubic s ≤ easeInOutCubic t) ∧
    easeInOutCubic 0 = 0 ∧ easeInOutCubic (1/2) = 1/2 ∧ easeInOutCubic 1 = 1 := by
  refine ⟨?_, ?_, ?_, by norm_num [easeInOutCubic], by norm_num [easeInOutCubic],
    by norm_num [easeInOutCubic]⟩
  · intro t
    unfold easeInOutCubic
    ring_nf
  · intro t h0 h1
    unfold easeInOutCubic
    by_cases h : t < 1/2
    · rw [if_pos h]
      have hc : 0 ≤ t * t * t := mul_nonneg (mul_nonneg h0 h0) h0
      have ht2 : t * t ≤ 1/4 := by nlinarith
      have ht3 : t * t * t ≤ (1/4) * t := by
        exact mul_le_mul_of_nonneg_right ht2 h0
      constructor <;> nlinarith
    · rw [if_neg h]
      push_neg at h
      have hu0 : (0 : ℚ) ≤ -2 * t + 2 := by linarith
      have hu1 : (-2 * t + 2 : ℚ) ≤ 1 := by linarith
      have hcube1 : (-2 * t + 2 : ℚ) ^ 3 ≤ 1 := pow_le_one₀ hu0 hu1
      have hcube0 : (0 : ℚ) ≤ (-2 * t + 2) ^ 3 := pow_nonneg hu0 3
      constructor <;> linarith
  · intro s t hs hst ht1
    unfold easeInOutCubic
    by_cases h1 : s < 1/2 <;> by_cases h2 : t < 1/2
    · rw [if_pos h1, if_pos h2]
      have := pow_le_pow_left₀ hs hst 3
      nlinarith
    · rw [if_pos h1, if_neg h2]
      push_neg at h2
      have hu0 : (0 : ℚ) ≤ -2 * t + 2 := by linarith
      have hu1 : (-2 * t + 2 : ℚ) ≤ 1 := by linarith
      have hcube1 : (-2 * t + 2 : ℚ) ^ 3 ≤ 1 := pow_le_one₀ hu0 hu1
      have hs2 : s * s ≤ 1/4 := by nlinarith
      have hs3 : s * s * s ≤ (1/4) * s := mul_le_mul_of_nonneg_right hs2 hs
      nlinarith
    · exact absurd (lt_of_le_of_lt hst h2) h1
    · rw [if_neg h1, if_neg h2]
      push_neg at h1 h2
      have hb0 : (0 : ℚ) ≤ -2 * t + 2 := by linarith
      have hba : (-2 * t + 2 : ℚ) ≤ -2 * s + 2 := by linarith
      have := pow_le_pow_left₀ hb0 hba 3
      linarith

/-- Witness for C7 at `s = 1/4`, `t = 3/4`. -/
theorem easeInOutCubic_spec_witness :
    (0 : ℚ) ≤ 1/4 ∧ (1/4 : ℚ) ≤ 3/4 ∧ (3/4 : ℚ) ≤ 1 ∧
    easeInOutCubic (1/4) ≤ easeInOutCubic (3/4) :=
  ⟨by norm_num, by norm_num, by norm_num,
   easeInOutCubic_spec.2.2.1 (1/4) (3/4) (by norm_num) (by norm_num) (by norm_num)⟩

/-! ## C2 -/

/-- C2 counterexample: at `pieceMoveDuration = 1000` and `pieceElapsed = -1000`
(i.e. `elapsed < currentSolvingIndex * pieceMoveDuration`), the progress computed by
the code is `-1`, which is below 0 — the code clamps only from above, so the claim
that progress is "never below 0" for every elapsed value is false. -/
theorem animProgress_no_lower_clamp_cex :
    animProgress 1000 (-1000) = -1 ∧ ¬ (0 ≤ animProgress 1000 (-1000)) := by
  norm_num [animProgress]

/-- C2 amended: the active piece's progress equals
`min(pieceElapsed / pieceMoveDuration, 1)` — clamped from above only; it never
exceeds 1, and it is nonnegative (hence in `[0,1]`) whenever
`pieceElapsed = elapsed - currentSolvingIndex * pieceMoveDuration` is nonnegative. -/
theorem pieceProgress_clamp (s : PuzzleState) (e : ℚ) (hd : 0 < s.pieceMoveDuration) :
    pieceProgress s e =
      min ((e - (s.currentSolvingIndex : ℚ) * s.pieceMoveDuration) /
        s.pieceMoveDuration) 1 ∧
    pieceProgress s e ≤ 1 ∧
    ((s.currentSolvingIndex : ℚ) * s.pieceMoveDuration ≤ e →
      0 ≤ pieceProgress s e ∧ pieceProgress s e ≤ 1) := by
  refine ⟨rfl, min_le_right _ _, fun he => ⟨?_, min_le_right _ _⟩⟩
  unfold pieceProgress animProgress
  have h0 : 0 ≤ (e - (s.currentSolvingIndex : ℚ) * s.pieceMoveDuration) /
      s.pieceMoveDuration := div_nonneg (by linarith) (le_of_lt hd)
  exact le_min h0 one_pos.le

/-- Witness for C2's amended theorem on a concrete state with
`pieceMoveDuration = 1000`, `currentSolvingIndex = 2`, `elapsed = 2500`. -/
theorem pieceProgress_clamp_witness :
    (0 : ℚ) < 1000 ∧
    (pieceProgress
        { pieces := [], solvingOrder := [], currentSolvingIndex := 2,
          pieceMoveDuration := 1000, totalDuration := 4000, timerText := "" } 2500 =
      min ((2500 - ((2 : ℕ) : ℚ) * 1000) / 1000) 1 ∧
     pieceProgress
        { pieces := [], solvingOrder := [], currentSolvingIndex := 2,
          pieceMoveDuration := 1000, totalDuration := 4000, timerText := "" } 2500 ≤ 1 ∧
     (((2 : ℕ) : ℚ) * 1000 ≤ 2500 →
       0 ≤ pieceProgress
          { pieces := [], solvingOrder := [], currentSolvingIndex := 2,
            pieceMoveDuration := 1000, totalDuration := 4000, timerText := "" } 2500 ∧
       pieceProgress
          { pieces := [], solvingOrder := [], currentSolvingIndex := 2,
            pieceMoveDuration := 1000, totalDuration := 4000, timerText := "" } 2500 ≤ 1)) :=
  ⟨by norm_num,
   pieceProgress_clamp
     { pieces := [], solvingOrder := [], currentSolvingIndex := 2,
       pieceMoveDuration := 1000, totalDuration := 4000, timerText := "" } 2500
     (by norm_num)⟩

/-! ## C10 -/

/-- C10: when the URL lacks a `minutes` parameter, `urlParams.get` yields `null`,
`parseInt` turns it into NaN (a number, not `null`), so `?? 2` never substitutes the
default and `totalDuration = NaN * 60000 = NaN` instead of the intended 120000 ms;
indeed `??` never applies after `parseInt` (its result is never nullish), and the
computed minutes equal the parsed value exactly when the parameter parses to a
number. -/
theorem pageMinutes_nan_default :
    jsParseInt none = JSVal.num none ∧
    pageMinutes none = JSVal.num none ∧
    pageTotalDuration none = JSVal.num none ∧
    pageTotalDuration none ≠ JSVal.num (some 120000) ∧
    (∀ a b, jsNullish (jsParseInt a) b = jsParseInt a) ∧
    (∀ s n, jsParseIntString s = some n →
      pageMinutes (some s) = JSVal.num (some n)) := by
  refine ⟨rfl, rfl, rfl, by decide, fun a b => ?_, fun s n h => ?_⟩
  · cases a <;> rfl
  · simp [pageMinutes, jsParseInt, jsNullish, h]

/-- Witness for C10's quantified parts at `s = "3"`, `n = 3`. -/
theorem pageMinutes_nan_default_witness :
    jsParseIntString "3" = some 3 ∧ pageMinutes (some "3") = JSVal.num (some 3) :=
  ⟨by decide, pageMinutes_nan_default.2.2.2.2.2 "3" 3 (by decide)⟩

/-! ## C9 -/

theorem updateTimer_congr {T e U d : ℚ} (h : max 0 (T - e) = max 0 (U - d)) :
    updateTimer T e = updateTimer U d := by
  simp only [updateTimer]
  rw [h]

theorem countdownValue_eq_floorSeconds (T e : ℚ) :
    countdownValue T e = ⌊max 0 (T - e) / 1000⌋ := by
  have hr : (0 : ℚ) ≤ max 0 (T - e) := le_max_left _ _
  simp only [countdownValue]
  rw [jsMod_of_nonneg _ hr (by norm_num)]
  have harg : (max 0 (T - e) - 60000 * (⌊max 0 (T - e) / 60000⌋ : ℚ)) / 1000 =
      max 0 (T - e) / 1000 - ((60 * ⌊max 0 (T - e) / 60000⌋ : ℤ) : ℚ) := by
    push_cast
    ring
  rw [harg, Int.floor_sub_int]
  ring

theorem updateTimer_ex1 : updateTimer 125000 0 = "2:05" := by
  have hm : max (0 : ℚ) (125000 - 0) = 125000 := by norm_num
  have hf : ⌊(125000 : ℚ) / 60000⌋ = 2 := by norm_num [Int.floor_eq_iff]
  have hmod : jsMod (125000 : ℚ) 60000 = 5000 := by
    rw [jsMod, jsTrunc_of_nonneg (by norm_num), hf]
    norm_num
  have hs : ⌊(5000 : ℚ) / 1000⌋ = 5 := by norm_num [Int.floor_eq_iff]
  simp only [updateTimer, hm, hf, hmod, hs]
  decide

theorem updateTimer_ex2 : updateTimer 0 0 = "0:00" := by
  have hm : max (0 : ℚ) (0 - 0) = 0 := by norm_num
  have hf : ⌊(0 : ℚ) / 60000⌋ = 0 := by norm_num
  have hmod : jsMod (0 : ℚ) 60000 = 0 := by
    rw [jsMod, jsTrunc_of_nonneg (by norm_num)]
    norm_num
  have hs : ⌊(0 : ℚ) / 1000⌋ = 0 := by norm_num
  simp only [updateTimer, hm, hf, hmod, hs]
  decide

theorem updateTimer_ex3 : updateTimer 59999 0 = "0:59" := by
  have hm : max (0 : ℚ) (59999 - 0) = 59999 := by norm_num
  have hf : ⌊(59999 : ℚ) / 60000⌋ = 0 := by norm_num [Int.floor_eq_iff]
  have hmod : jsMod (59999 : ℚ) 60000 = 59999 := by
    rw [jsMod, jsTrunc_of_nonneg (by norm_num), hf]
    norm_num
  have hs : ⌊(59999 : ℚ) / 1000⌋ = 59 := by norm_num [Int.floor_eq_iff]
  simp only [updateTimer, hm, hmod, hf, hs]
  decide

/-- C9: the countdown text is computed from `remaining = max(0, totalDuration - elapsed)`
exactly as the specification's formula says (`floor(remaining/60000)` minutes,
`floor((remaining mod 60000)/1000)` seconds, seconds zero-padded, colon-joined); its
numeric reading `60 * minutes + seconds` is non-increasing in `elapsed`; for
`elapsed ≥ totalDuration` the text is `"0:00"`; and `remaining = 125000 → "2:05"`,
`remaining = 0 → "0:00"`, `remaining = 59999 → "0:59"`. -/
theorem updateTimer_spec :
    (∀ T e : ℚ, updateTimer T e = specCountdown T e) ∧
    (∀ T e1 e2 : ℚ, e1 ≤ e2 → countdownValue T e2 ≤ countdownValue T e1) ∧
    (∀ T e : ℚ, T ≤ e → updateTimer T e = "0:00") ∧
    updateTimer 125000 0 = "2:05" ∧ updateTimer 0 0 = "0:00" ∧
    updateTimer 59999 0 = "0:59" := by
  refine ⟨?_, ?_, ?_, updateTimer_ex1, updateTimer_ex2, updateTimer_ex3⟩
  · intro T e
    have hr : (0 : ℚ) ≤ max 0 (T - e) := le_max_left _ _
    simp only [updateTimer, specCountdown]
    rw [jsMod_of_nonneg _ hr (by norm_num)]
  · intro T e1 e2 h
    rw [countdownValue_eq_floorSeconds, countdownValue_eq_floorSeconds]
    apply Int.floor_le_floor
    have hm : max 0 (T - e2) ≤ max 0 (T - e1) := max_le_max le_rfl (by linarith)
    linarith
  · intro T e h
    have h0 : max 0 (T - e) = 0 := max_eq_left (by linarith)
    rw [@updateTimer_congr T e 0 0 (by simp [h0])]
    exact updateTimer_ex2

/-- Witness for C9's quantified parts: monotonicity at `T = 60000`, `e1 = 0`,
`e2 = 1`, and the zero floor at `T = 100`, `e = 200`. -/
theorem updateTimer_spec_witness :
    ((0 : ℚ) ≤ 1 ∧ countdownValue 60000 1 ≤ countdownValue 60000 0) ∧
    ((100 : ℚ) ≤ 200 ∧ updateTimer 100 200 = "0:00") :=
  ⟨⟨by norm_num, updateTimer_spec.2.1 60000 0 1 (by norm_num)⟩,
   ⟨by norm_num, updateTimer_spec.2.2.1 100 200 (by norm_num)⟩⟩

/-! ## C6 -/

theorem count_swapEntries (l : List ℕ) (i j : ℕ) (hi : i < l.length) (hj : j < l.length)
    (x : ℕ) : (swapEntries l i j).count x = l.count x := by
  have hj' : j < (l.set i (l.getD j 0)).length := by simpa using hj
  unfold swapEntries
  rw [List.count_set _ _ _ _ hj', List.count_set _ _ _ _ hi]
  have hgetset : (l.set i (l.getD j 0))[j] = l[j] := by
    rw [List.getElem_set]
    by_cases h : i = j
    · subst h
      rw [if_pos rfl, List.getD_eq_getElem l 0 hj]
    · rw [if_neg h]
  rw [hgetset, List.getD_eq_getElem l 0 hi, List.getD_eq_getElem l 0 hj]
  have hci : l[i] = x → 1 ≤ l.count x := fun h =>
    List.count_pos_iff.mpr (h ▸ List.getElem_mem hi)
  simp only [beq_iff_eq]
  split_ifs with h1 h2 <;> simp_all

theorem fisherYatesLoop_perm (draw : ℕ → ℕ) (hdraw : ∀ k, draw k ≤ k) :
    ∀ (i : ℕ) (l : List ℕ), i < l.length → (fisherYatesLoop draw i l).Perm l := by
  intro i
  induction i with
  | zero => intro l _; exact List.Perm.refl l
  | succ n ih =>
    intro l hl
    have hswap : (swapEntries l (n + 1) (draw (n + 1))).Perm l :=
      List.perm_iff_count.mpr fun x =>
        count_swapEntries l (n + 1) (draw (n + 1)) hl
          (lt_of_le_of_lt (hdraw (n + 1)) hl) x
    have hlen : (swapEntries l (n + 1) (draw (n + 1))).length = l.length := by
      simp [swapEntries]
    exact (ih _ (by omega)).trans hswap

theorem setupSolvingOrder_perm (draw : ℕ → ℕ) (hdraw : ∀ k, draw k ≤ k) (n : ℕ) :
    (setupSolvingOrder draw n).Perm (List.range n) := by
  unfold setupSolvingOrder
  rcases n with _ | m
  · exact List.Perm.refl _
  · exact fisherYatesLoop_perm draw hdraw m (List.range (m + 1))
      (by simp only [List.length_range]; omega)

theorem length_createPuzzlePieces (w h : ℚ) (rows cols : ℕ) (sf : ℚ) :
    (createPuzzlePieces w h rows cols sf).length = rows * cols := by
  simp [createPuzzlePieces, List.length_flatMap, Function.comp_def, List.map_const',
    List.sum_replicate, smul_eq_mul]

theorem length_shufflePieces (pieces : List JigsawPiece) (cw ch mr : ℚ)
    (rnd : ℕ → ℚ × ℚ × ℚ) : (shufflePieces pieces cw ch mr rnd).length = pieces.length := by
  simp [shufflePieces]

theorem initState_pieces_length (w h : ℚ) (rows cols : ℕ) (T mr mw mh : ℚ)
    (rnd : ℕ → ℚ × ℚ × ℚ) (draw : ℕ → ℕ) :
    (initState w h rows cols T mr mw mh rnd draw).pieces.length = rows * cols := by
  simp [initState, length_shufflePieces, length_createPuzzlePieces]

/-- C6: for every piece count `N ≥ 1` and every sequence of random draws (each
`draw k = Math.floor(Math.random() * (k+1)) ≤ k`), the solving order is a permutation
of `0..N-1` built by the Fisher–Yates loop — each index appears exactly once — and the
initialization pipeline sets `pieceMoveDuration = totalDuration / N` with
`N = pieces.length = rows * cols`. -/
theorem setupSolvingOrder_spec (n : ℕ) (hn : 1 ≤ n) (draw : ℕ → ℕ)
    (hdraw : ∀ k, draw k ≤ k) :
    (setupSolvingOrder draw n).Perm (List.range n) ∧
    (∀ k, k < n → (setupSolvingOrder draw n).count k = 1) ∧
    (setupSolvingOrder draw n).length = n ∧
    (∀ (w h T mr mw mh : ℚ) (rows cols : ℕ) (rnd : ℕ → ℚ × ℚ × ℚ),
      (initState w h rows cols T mr mw mh rnd draw).pieceMoveDuration =
        T / ((rows * cols : ℕ) : ℚ) ∧
      (initState w h rows cols T mr mw mh rnd draw).solvingOrder =
        setupSolvingOrder draw (rows * cols)) := by
  have hperm := setupSolvingOrder_perm draw hdraw n
  refine ⟨hperm, fun k hk => ?_, ?_, fun w h T mr mw mh rows cols rnd => ⟨?_, ?_⟩⟩
  · have hmem : k ∈ setupSolvingOrder draw n := hperm.mem_iff.mpr (List.mem_range.mpr hk)
    have hnd : (setupSolvingOrder draw n).Nodup := hperm.symm.nodup (List.nodup_range n)
    exact List.count_eq_one_of_mem hnd hmem
  · exact hperm.length_eq.trans (List.length_range n)
  · simp [initState, initState_pieces_length, length_shufflePieces,
      length_createPuzzlePieces]
  · simp [initState, length_shufflePieces, length_createPuzzlePieces]

/-- Witness for C6 at `n = 3` with the draw sequence constantly 0. -/
theorem setupSolvingOrder_spec_witness :
    (1 : ℕ) ≤ 3 ∧
    ((setupSolvingOrder (fun _ => 0) 3).Perm (List.range 3) ∧
     (∀ k, k < 3 → (setupSolvingOrder (fun _ => 0) 3).count k = 1) ∧
     (setupSolvingOrder (fun _ => 0) 3).length = 3 ∧
     (∀ (w h T mr mw mh : ℚ) (rows cols : ℕ) (rnd : ℕ → ℚ × ℚ × ℚ),
       (initState w h rows cols T mr mw mh rnd (fun _ => 0)).pieceMoveDuration =
         T / ((rows * cols : ℕ) : ℚ) ∧
       (initState w h rows cols T mr mw mh rnd (fun _ => 0)).solvingOrder =
         setupSolvingOrder (fun _ => 0) (rows * cols))) :=
  ⟨by norm_num,
   setupSolvingOrder_spec 3 (by norm_num) (fun _ => 0) fun k => Nat.zero_le k⟩

/-! ## Frame-step lemmas -/

theorem animate_fixed_fields (s : PuzzleState) (e : ℚ) :
    (animate s e).state.solvingOrder = s.solvingOrder ∧
    (animate s e).state.pieceMoveDuration = s.pieceMoveDuration ∧
    (animate s e).state.totalDuration = s.totalDuration ∧
    (animate s e).state.pieces.length = s.pieces.length := by
  by_cases h1 : s.currentSolvingIndex < s.solvingOrder.length <;>
    by_cases h2 : 1 ≤ animProgress s.pieceMoveDuration
        (e - (s.currentSolvingIndex : ℚ) * s.pieceMoveDuration) <;>
      by_cases h3 : e < s.totalDuration <;>
        simp [animate, h1, h2, h3]

theorem animate_step_cases (s : PuzzleState) (e : ℚ) :
    ((s.currentSolvingIndex < s.solvingOrder.length ∧ 1 ≤ pieceProgress s e) ∧
      (animate s e).state.pieces =
        s.pieces.set (s.solvingOrder.getD s.currentSolvingIndex 0)
          { s.pieces.getD (s.solvingOrder.getD s.currentSolvingIndex 0) default with
            solved := true, rotation := 0 } ∧
      (animate s e).state.currentSolvingIndex = s.currentSolvingIndex + 1) ∨
    (¬ (s.currentSolvingIndex < s.solvingOrder.length ∧ 1 ≤ pieceProgress s e) ∧
      (animate s e).state.pieces = s.pieces ∧
      (animate s e).state.currentSolvingIndex = s.currentSolvingIndex) := by
  by_cases h1 : s.currentSolvingIndex < s.solvingOrder.length <;>
    by_cases h2 : 1 ≤ pieceProgress s e
  · have h2' : 1 ≤ animProgress s.pieceMoveDuration
        (e - (s.currentSolvingIndex : ℚ) * s.pieceMoveDuration) := h2
    left
    refine ⟨⟨h1, h2⟩, ?_, ?_⟩ <;>
      by_cases h3 : e < s.totalDuration <;> simp [animate, h1, h2', h3]
  · have h2' : ¬ 1 ≤ animProgress s.pieceMoveDuration
        (e - (s.currentSolvingIndex : ℚ) * s.pieceMoveDuration) := h2
    right
    refine ⟨by tauto, ?_, ?_⟩ <;>
      by_cases h3 : e < s.totalDuration <;> simp [animate, h1, h2', h3]
  · right
    refine ⟨by tauto, ?_, ?_⟩ <;>
      by_cases h3 : e < s.totalDuration <;> simp [animate, h1, h3]
  · right
    refine ⟨by tauto, ?_, ?_⟩ <;>
      by_cases h3 : e < s.totalDuration <;> simp [animate, h1, h3]

theorem getD_set_piece (l : List JigsawPiece) (j : ℕ) (p : JigsawPiece) (i : ℕ) :
    (l.set j p).getD i default =
      if j = i ∧ j < l.length then p else l.getD i default := by
  rw [List.getD_eq_getElem?_getD, List.getD_eq_getElem?_getD, List.getElem?_set]
  by_cases h : j = i
  · subst h
    by_cases h2 : j < l.length
    · simp [h2]
    · simp [h2, List.getElem?_eq_none (le_of_not_lt h2)]
  · simp [h]

theorem animate_index_le_succ (s : PuzzleState) (e : ℚ) :
    s.currentSolvingIndex ≤ (animate s e).state.currentSolvingIndex ∧
    (animate s e).state.currentSolvingIndex ≤ s.currentSolvingIndex + 1 := by
  rcases animate_step_cases s e with ⟨_, _, hi⟩ | ⟨_, _, hi⟩ <;> rw [hi] <;> omega

theorem orderOk_animate (s : PuzzleState) (e : ℚ) (h : OrderOk s) :
    OrderOk (animate s e).state := by
  unfold OrderOk at *
  rw [(animate_fixed_fields s e).1, (animate_fixed_fields s e).2.2.2]
  exact h

theorem solvedInv_animate (s : PuzzleState) (e : ℚ) (hord : OrderOk s)
    (hinv : SolvedInv s) : SolvedInv (animate s e).state := by
  intro k hk
  rw [(animate_fixed_fields s e).1] at hk
  rw [(animate_fixed_fields s e).1]
  rcases animate_step_cases s e with ⟨⟨h1, _⟩, hp, hi⟩ | ⟨_, hp, hi⟩
  · rw [hp, hi, getD_set_piece]
    have hnd : s.solvingOrder.Nodup := hord.symm.nodup (List.nodup_range _)
    by_cases heq : s.solvingOrder.getD s.currentSolvingIndex 0 =
        s.solvingOrder.getD k 0
    · have hkidx : k = s.currentSolvingIndex := by
        have h1' := List.getD_eq_getElem s.solvingOrder 0 h1
        have hk' := List.getD_eq_getElem s.solvingOrder 0 hk
        rw [h1', hk'] at heq
        exact (hnd.getElem_inj_iff.mp heq).symm
      have htgt : s.solvingOrder.getD s.currentSolvingIndex 0 < s.pieces.length := by
        have hmem : s.solvingOrder.getD s.currentSolvingIndex 0 ∈ s.solvingOrder := by
          rw [List.getD_eq_getElem s.solvingOrder 0 h1]
          exact List.getElem_mem h1
        exact List.mem_range.mp (hord.mem_iff.mp hmem)
      rw [if_pos ⟨heq, htgt⟩]
      simp [hkidx]
    · rw [if_neg fun hc => heq hc.1]
      have hne : k ≠ s.currentSolvingIndex := fun hkeq => heq (by rw [hkeq])
      rw [hinv k hk]
      omega
  · rw [hp, hi]
    exact hinv k hk

theorem runFrames_inv (es : List ℚ) :
    ∀ s : PuzzleState, OrderOk s → SolvedInv s →
      OrderOk (runFrames s es) ∧ SolvedInv (runFrames s es) := by
  induction es with
  | nil => exact fun s h1 h2 => ⟨h1, h2⟩
  | cons e es ih =>
    intro s h1 h2
    exact ih _ (orderOk_animate s e h1) (solvedInv_animate s e h1 h2)

theorem orderOk_initState (w h : ℚ) (rows cols : ℕ) (T mr mw mh : ℚ)
    (rnd : ℕ → ℚ × ℚ × ℚ) (draw : ℕ → ℕ) (hdraw : ∀ k, draw k ≤ k) :
    OrderOk (initState w h rows cols T mr mw mh rnd draw) := by
  unfold OrderOk
  simp only [initState]
  exact setupSolvingOrder_perm draw hdraw _

theorem solved_mem_createPuzzlePieces (w h : ℚ) (rows cols : ℕ) (sf : ℚ)
    (p : JigsawPiece) (hp : p ∈ createPuzzlePieces w h rows cols sf) :
    p.solved = false := by
  simp only [createPuzzlePieces, List.mem_flatMap, List.mem_map] at hp
  obtain ⟨r, _, c, _, rfl⟩ := hp
  rfl

theorem solved_initState (w h : ℚ) (rows cols : ℕ) (T mr mw mh : ℚ)
    (rnd : ℕ → ℚ × ℚ × ℚ) (draw : ℕ → ℕ) (i : ℕ) :
    ((initState w h rows cols T mr mw mh rnd draw).pieces.getD i default).solved =
      false := by
  by_cases hi : i < (initState w h rows cols T mr mw mh rnd draw).pieces.length
  · rw [List.getD_eq_getElem _ _ hi]
    have hi' : i < (createPuzzlePieces w h rows cols
        (calculateScaleFactor mw mh w h)).length := by
      have := initState_pieces_length w h rows cols T mr mw mh rnd draw
      rw [this] at hi
      rw [length_createPuzzlePieces]
      exact hi
    have hmap : (initState w h rows cols T mr mw mh rnd draw).pieces.get
        ⟨i, hi⟩ = (initState w h rows cols T mr mw mh rnd draw).pieces[i] := rfl
    simp only [initState, shufflePieces, List.getElem_mapIdx]
    exact solved_mem_createPuzzlePieces w h rows cols _ _ (List.getElem_mem hi')
  · rw [List.getD_eq_getElem?_getD, List.getElem?_eq_none (le_of_not_lt hi)]
    rfl

theorem solvedInv_initState (w h : ℚ) (rows cols : ℕ) (T mr mw mh : ℚ)
    (rnd : ℕ → ℚ × ℚ × ℚ) (draw : ℕ → ℕ) :
    SolvedInv (initState w h rows cols T mr mw mh rnd draw) := by
  intro k hk
  rw [solved_initState w h rows cols T mr mw mh rnd draw _]
  have hidx : (initState w h rows cols T mr mw mh rnd draw).currentSolvingIndex = 0 := rfl
  rw [hidx]
  simp

/-! ## C3 -/

/-- C3: in every state reachable from initialization by repeatedly applying the frame
step, at most one piece is active (`0 < progress < 1`) at any elapsed time; every
piece whose solving-order position is strictly before `currentSolvingIndex` has
`solved = true` and every piece at or after it has `solved = false`;
`currentSolvingIndex` starts at 0 and never decreases across any frame step. -/
theorem reachable_state_invariants (w h : ℚ) (rows cols : ℕ) (T mr mw mh : ℚ)
    (rnd : ℕ → ℚ × ℚ × ℚ) (draw : ℕ → ℕ) (hdraw : ∀ k, draw k ≤ k) (es : List ℚ) :
    (initState w h rows cols T mr mw mh rnd draw).currentSolvingIndex = 0 ∧
    (∀ e i j,
      isActivePiece (runFrames (initState w h rows cols T mr mw mh rnd draw) es) e i →
      isActivePiece (runFrames (initState w h rows cols T mr mw mh rnd draw) es) e j →
      i = j) ∧
    (∀ k,
      k < (runFrames (initState w h rows cols T mr mw mh rnd draw) es).solvingOrder.length →
      (k < (runFrames (initState w h rows cols T mr mw mh rnd draw) es).currentSolvingIndex →
        (((runFrames (initState w h rows cols T mr mw mh rnd draw) es).pieces.getD
          ((runFrames (initState w h rows cols T mr mw mh rnd draw) es).solvingOrder.getD
            k 0) default).solved = true)) ∧
      ((runFrames (initState w h rows cols T mr mw mh rnd draw) es).currentSolvingIndex ≤ k →
        (((runFrames (initState w h rows cols T mr mw mh rnd draw) es).pieces.getD
          ((runFrames (initState w h rows cols T mr mw mh rnd draw) es).solvingOrder.getD
            k 0) default).solved = false))) ∧
    (∀ (s : PuzzleState) (e : ℚ),
      s.currentSolvingIndex ≤ (animate s e).state.currentSolvingIndex) := by
  have hinv := runFrames_inv es (initState w h rows cols T mr mw mh rnd draw)
    (orderOk_initState w h rows cols T mr mw mh rnd draw hdraw)
    (solvedInv_initState w h rows cols T mr mw mh rnd draw)
  refine ⟨rfl, ?_, ?_, fun s e => (animate_index_le_succ s e).1⟩
  · intro e i j hi hj
    rw [hi.2.1, hj.2.1]
  · intro k hk
    have hiff := hinv.2 k hk
    constructor
    · intro hklt
      exact hiff.mpr hklt
    · intro hge
      rcases Bool.eq_false_or_eq_true (((runFrames
          (initState w h rows cols T mr mw mh rnd draw) es).pieces.getD
          ((runFrames (initState w h rows cols T mr mw mh rnd draw)
            es).solvingOrder.getD k 0) default).solved) with ht | hf
      · exact absurd (hiff.mp ht) (by omega)
      · exact hf

/-- Witness for C3 on a 1×1 puzzle with constant draws and no frames executed. -/
theorem reachable_state_invariants_witness :
    (∀ k : ℕ, (fun _ : ℕ => 0) k ≤ k) ∧
    ((initState 1 1 1 1 1000 0 1 1 (fun _ => (0, 0, 0))
        (fun _ => 0)).currentSolvingIndex = 0 ∧
     (∀ e i j,
       isActivePiece (runFrames (initState 1 1 1 1 1000 0 1 1 (fun _ => (0, 0, 0))
         (fun _ => 0)) []) e i →
       isActivePiece (runFrames (initState 1 1 1 1 1000 0 1 1 (fun _ => (0, 0, 0))
         (fun _ => 0)) []) e j →
       i = j) ∧
     (∀ k,
       k < (runFrames (initState 1 1 1 1 1000 0 1 1 (fun _ => (0, 0, 0))
         (fun _ => 0)) []).solvingOrder.length →
       (k < (runFrames (initState 1 1 1 1 1000 0 1 1 (fun _ => (0, 0, 0))
          (fun _ => 0)) []).currentSolvingIndex →
         (((runFrames (initState 1 1 1 1 1000 0 1 1 (fun _ => (0, 0, 0))
           (fun _ => 0)) []).pieces.getD
           ((runFrames (initState 1 1 1 1 1000 0 1 1 (fun _ => (0, 0, 0))
             (fun _ => 0)) []).solvingOrder.getD k 0) default).solved = true)) ∧
       ((runFrames (initState 1 1 1 1 1000 0 1 1 (fun _ => (0, 0, 0))
          (fun _ => 0)) []).currentSolvingIndex ≤ k →
         (((runFrames (initState 1 1 1 1 1000 0 1 1 (fun _ => (0, 0, 0))
           (fun _ => 0)) []).pieces.getD
           ((runFrames (initState 1 1 1 1 1000 0 1 1 (fun _ => (0, 0, 0))
             (fun _ => 0)) []).solvingOrder.getD k 0) default).solved = false))) ∧
     (∀ (s : PuzzleState) (e : ℚ),
       s.currentSolvingIndex ≤ (animate s e).state.currentSolvingIndex)) :=
  ⟨fun k => Nat.zero_le k,
   reachable_state_invariants 1 1 1 1 1000 0 1 1 (fun _ => (0, 0, 0)) (fun _ => 0)
     (fun k => Nat.zero_le k) []⟩

/-! ## C4 -/

/-- C4: a frame step that completes the active piece (`progress` reaches 1) replaces
exactly that piece by a copy with `solved := true` and `rotation := 0` and increments
`currentSolvingIndex`; any other frame step leaves pieces and index unchanged; no
frame step writes any piece's `currentX`, `currentY`, `originalX`, `originalY`,
`width`, `height` or bitmap; a true `solved` flag is never reset; and a solved piece
is always drawn at its home position with rotation 0 regardless of its stored
current position and rotation. -/
theorem animate_frame_effects (s : PuzzleState) (e : ℚ) :
    (s.currentSolvingIndex < s.solvingOrder.length → 1 ≤ pieceProgress s e →
      (animate s e).state.pieces =
        s.pieces.set (s.solvingOrder.getD s.currentSolvingIndex 0)
          { s.pieces.getD (s.solvingOrder.getD s.currentSolvingIndex 0) default with
            solved := true, rotation := 0 } ∧
      (animate s e).state.currentSolvingIndex = s.currentSolvingIndex + 1) ∧
    (¬ (s.currentSolvingIndex < s.solvingOrder.length ∧ 1 ≤ pieceProgress s e) →
      (animate s e).state.pieces = s.pieces ∧
      (animate s e).state.currentSolvingIndex = s.currentSolvingIndex) ∧
    (∀ i,
      ((animate s e).state.pieces.getD i default).canvas =
        (s.pieces.getD i default).canvas ∧
      ((animate s e).state.pieces.getD i default).originalX =
        (s.pieces.getD i default).originalX ∧
      ((animate s e).state.pieces.getD i default).originalY =
        (s.pieces.getD i default).originalY ∧
      ((animate s e).state.pieces.getD i default).currentX =
        (s.pieces.getD i default).currentX ∧
      ((animate s e).state.pieces.getD i default).currentY =
        (s.pieces.getD i default).currentY ∧
      ((animate s e).state.pieces.getD i default).width =
        (s.pieces.getD i default).width ∧
      ((animate s e).state.pieces.getD i default).height =
        (s.pieces.getD i default).height) ∧
    (∀ i, (s.pieces.getD i default).solved = true →
      ((animate s e).state.pieces.getD i default).solved = true) ∧
    (∀ p : JigsawPiece, p.solved = true →
      generalDraw p = ⟨p.canvas, p.originalX, p.originalY, 0⟩) := by
  refine ⟨?_, ?_, ?_, ?_, ?_⟩
  · intro h1 h2
    rcases animate_step_cases s e with ⟨_, hp, hi⟩ | ⟨hn, _, _⟩
    · exact ⟨hp, hi⟩
    · exact absurd ⟨h1, h2⟩ hn
  · intro hn
    rcases animate_step_cases s e with ⟨hc, _, _⟩ | ⟨_, hp, hi⟩
    · exact absurd hc hn
    · exact ⟨hp, hi⟩
  · intro i
    rcases animate_step_cases s e with ⟨_, hp, _⟩ | ⟨_, hp, _⟩
    · rw [hp, getD_set_piece]
      split_ifs with hcond
      · rcases hcond with ⟨rfl, _⟩
        exact ⟨rfl, rfl, rfl, rfl, rfl, rfl, rfl⟩
      · exact ⟨rfl, rfl, rfl, rfl, rfl, rfl, rfl⟩
    · rw [hp]
      exact ⟨rfl, rfl, rfl, rfl, rfl, rfl, rfl⟩
  · intro i hsolved
    rcases animate_step_cases s e with ⟨_, hp, _⟩ | ⟨_, hp, _⟩
    · rw [hp, getD_set_piece]
      split_ifs with hcond
      · rfl
      · exact hsolved
    · rw [hp]
      exact hsolved
  · intro p hp
    unfold generalDraw
    rw [if_pos hp]

/-- Witness for C4 on an empty state at elapsed 0 (the no-completion branch) and a
concrete solved piece for the rendering clause. -/
theorem animate_frame_effects_witness :
    (¬ ((0 : ℕ) < ([] : List ℕ).length ∧
        1 ≤ pieceProgress
          { pieces := [], solvingOrder := [], currentSolvingIndex := 0,
            pieceMoveDuration := 1000, totalDuration := 1000, timerText := "" } 0) ∧
      ((animate
          { pieces := [], solvingOrder := [], currentSolvingIndex := 0,
            pieceMoveDuration := 1000, totalDuration := 1000, timerText := "" }
          0).state.pieces =
        ({ pieces := [], solvingOrder := [], currentSolvingIndex := 0,
           pieceMoveDuration := 1000, totalDuration := 1000,
           timerText := "" } : PuzzleState).pieces ∧
       (animate
          { pieces := [], solvingOrder := [], currentSolvingIndex := 0,
            pieceMoveDuration := 1000, totalDuration := 1000, timerText := "" }
          0).state.currentSolvingIndex = 0)) ∧
    ((⟨7, 1, 2, 3, 4, 5, 6, true, 9⟩ : JigsawPiece).solved = true ∧
      generalDraw ⟨7, 1, 2, 3, 4, 5, 6, true, 9⟩ = ⟨7, 1, 2, 0⟩) :=
  ⟨⟨by simp,
    (animate_frame_effects
      { pieces := [], solvingOrder := [], currentSolvingIndex := 0,
        pieceMoveDuration := 1000, totalDuration := 1000, timerText := "" } 0).2.1
      (by simp)⟩,
   ⟨rfl,
    (animate_frame_effects
      { pieces := [], solvingOrder := [], currentSolvingIndex := 0,
        pieceMoveDuration := 1000, totalDuration := 1000, timerText := "" } 0).2.2.2.2
      ⟨7, 1, 2, 3, 4, 5, 6, true, 9⟩ rfl⟩⟩

/-! ## C1 -/

theorem updateTimer_total (T : ℚ) : updateTimer T T = "0:00" := by
  rw [@updateTimer_congr T T 0 0 (by simp)]
  exact updateTimer_ex2

theorem animate_terminal (s : PuzzleState) (e : ℚ) (h : s.totalDuration ≤ e) :
    (animate s e).scheduleNext = false ∧
    (animate s e).state.timerText = "0:00" ∧
    (animate s e).draws =
      (animate s e).state.pieces.map fun p => ⟨p.canvas, p.originalX, p.originalY, 0⟩ := by
  have hnl : ¬ e < s.totalDuration := not_lt.mpr h
  refine ⟨?_, ?_, ?_⟩ <;> simp [animate, hnl, updateTimer_total]

/-- C1 amended: when the frame callback observes `elapsed ≥ totalDuration` it does not
schedule another frame, it forces the countdown text to `"0:00"`, and it ends with a
full redraw whose draw list places every piece (one draw per piece, in index order) at
its home coordinate with rotation 0 — so every piece's rendered position is its home
position and its rendered rotation is 0.  (The stored `solved` flags need not all be
true: the final branch redraws at home without marking pieces solved, and at most one
piece is marked solved per frame.) -/
theorem animate_terminal_spec (s : PuzzleState) (e : ℚ) (h : s.totalDuration ≤ e) :
    (animate s e).scheduleNext = false ∧
    (animate s e).state.timerText = "0:00" ∧
    (animate s e).draws =
      (animate s e).state.pieces.map
        (fun p => ⟨p.canvas, p.originalX, p.originalY, 0⟩) ∧
    (animate s e).draws.length = (animate s e).state.pieces.length := by
  obtain ⟨h1, h2, h3⟩ := animate_terminal s e h
  exact ⟨h1, h2, h3, by rw [h3, List.length_map]⟩

/-- Witness for C1's amended theorem: a concrete 1×2 puzzle whose single frame arrives
exactly at `totalDuration = 20000`. -/
theorem animate_terminal_spec_witness :
    (initState 2 1 1 2 20000 0 100 100 (fun _ => (0, 0, 0))
        (fun _ => 0)).totalDuration ≤ 20000 ∧
    ((animate (initState 2 1 1 2 20000 0 100 100 (fun _ => (0, 0, 0)) (fun _ => 0))
        20000).scheduleNext = false ∧
     (animate (initState 2 1 1 2 20000 0 100 100 (fun _ => (0, 0, 0)) (fun _ => 0))
        20000).state.timerText = "0:00" ∧
     (animate (initState 2 1 1 2 20000 0 100 100 (fun _ => (0, 0, 0)) (fun _ => 0))
        20000).draws =
       (animate (initState 2 1 1 2 20000 0 100 100 (fun _ => (0, 0, 0)) (fun _ => 0))
          20000).state.pieces.map
         (fun p => ⟨p.canvas, p.originalX, p.originalY, 0⟩) ∧
     (animate (initState 2 1 1 2 20000 0 100 100 (fun _ => (0, 0, 0)) (fun _ => 0))
        20000).draws.length =
       (animate (initState 2 1 1 2 20000 0 100 100 (fun _ => (0, 0, 0)) (fun _ => 0))
          20000).state.pieces.length) :=
  ⟨le_of_eq rfl,
   animate_terminal_spec
     (initState 2 1 1 2 20000 0 100 100 (fun _ => (0, 0, 0)) (fun _ => 0)) 20000
     (le_of_eq rfl)⟩

/-- C1 counterexample: in the 1×2 puzzle whose only frame arrives exactly at
`totalDuration`, the terminal frame stops scheduling, yet the piece at solving-order
position 1 still has `solved = false` — so "in the terminal state each piece's solved
flag is true" fails (only the rendered output is at home). -/
theorem animate_terminal_solved_flag_cex :
    (initState 2 1 1 2 20000 0 100 100 (fun _ => (0, 0, 0))
        (fun _ => 0)).totalDuration ≤ 20000 ∧
    (animate (initState 2 1 1 2 20000 0 100 100 (fun _ => (0, 0, 0)) (fun _ => 0))
        20000).scheduleNext = false ∧
    ((animate (initState 2 1 1 2 20000 0 100 100 (fun _ => (0, 0, 0)) (fun _ => 0))
        20000).state.pieces.getD
      ((animate (initState 2 1 1 2 20000 0 100 100 (fun _ => (0, 0, 0)) (fun _ => 0))
          20000).state.solvingOrder.getD 1 0) default).solved = false := by
  have hterm := animate_terminal
    (initState 2 1 1 2 20000 0 100 100 (fun _ => (0, 0, 0)) (fun _ => 0)) 20000
    (le_of_eq rfl)
  refine ⟨le_of_eq rfl, hterm.1, ?_⟩
  have hord := orderOk_initState 2 1 1 2 20000 0 100 100 (fun _ => (0, 0, 0))
    (fun _ => 0) (fun k => Nat.zero_le k)
  have hinv := solvedInv_initState 2 1 1 2 20000 0 100 100 (fun _ => (0, 0, 0))
    (fun _ => 0)
  have hinv' := solvedInv_animate
    (initState 2 1 1 2 20000 0 100 100 (fun _ => (0, 0, 0)) (fun _ => 0)) 20000
    hord hinv
  have hfix := animate_fixed_fields
    (initState 2 1 1 2 20000 0 100 100 (fun _ => (0, 0, 0)) (fun _ => 0)) 20000
  have hordlen : (initState 2 1 1 2 20000 0 100 100 (fun _ => (0, 0, 0))
      (fun _ => 0)).solvingOrder.length = 2 := by
    have hso : (initState 2 1 1 2 20000 0 100 100 (fun _ => (0, 0, 0))
        (fun _ => 0)).solvingOrder = setupSolvingOrder (fun _ => 0) 2 := by
      simp [initState, length_shufflePieces, length_createPuzzlePieces]
    rw [hso]
    exact ((setupSolvingOrder_perm (fun _ => 0) (fun k => Nat.zero_le k)
      2).length_eq).trans (List.length_range 2)
  have hlen : (animate (initState 2 1 1 2 20000 0 100 100 (fun _ => (0, 0, 0))
      (fun _ => 0)) 20000).state.solvingOrder.length = 2 := by
    rw [hfix.1, hordlen]
  have hidx : (animate (initState 2 1 1 2 20000 0 100 100 (fun _ => (0, 0, 0))
      (fun _ => 0)) 20000).state.currentSolvingIndex ≤ 1 := by
    have h2 := (animate_index_le_succ
      (initState 2 1 1 2 20000 0 100 100 (fun _ => (0, 0, 0)) (fun _ => 0)) 20000).2
    have h0 : (initState 2 1 1 2 20000 0 100 100 (fun _ => (0, 0, 0))
        (fun _ => 0)).currentSolvingIndex = 0 := rfl
    omega
  have hiff := hinv' 1 (by omega)
  rcases Bool.eq_false_or_eq_true ((animate (initState 2 1 1 2 20000 0 100 100
      (fun _ => (0, 0, 0)) (fun _ => 0)) 20000).state.pieces.getD
      ((animate (initState 2 1 1 2 20000 0 100 100 (fun _ => (0, 0, 0))
          (fun _ => 0)) 20000).state.solvingOrder.getD 1 0) default).solved
    with ht | hf
  · exact absurd (hiff.mp ht) (by omega)
  · exact hf

/-! ## C8 -/

theorem length_flatMap_range_map {α : Type} (g : ℕ → ℕ → α) (rows cols : ℕ) :
    ((List.range rows).flatMap fun row =>
      (List.range cols).map fun col => g row col).length = rows * cols := by
  simp [List.length_flatMap, Function.comp_def, List.map_const', List.sum_replicate,
    smul_eq_mul]

theorem getD_flatMap_range_map {α : Type} [Inhabited α] (g : ℕ → ℕ → α) (cols : ℕ) :
    ∀ (rows r c : ℕ), r < rows → c < cols →
      ((List.range rows).flatMap fun row =>
        (List.range cols).map fun col => g row col).getD (r * cols + c) default =
        g r c := by
  intro rows
  induction rows with
  | zero => intro r c hr _; exact absurd hr (Nat.not_lt_zero r)
  | succ n ih =>
    intro r c hr hc
    rw [List.range_succ, List.flatMap_append]
    by_cases hrn : r < n
    · rw [List.getD_append _ _ _ _ ?_]
      · exact ih r c hrn hc
      · rw [length_flatMap_range_map]
        have h1 : (r + 1) * cols ≤ n * cols := Nat.mul_le_mul_right cols hrn
        have h2 : r * cols + c < (r + 1) * cols := by
          rw [Nat.add_mul, Nat.one_mul]
          omega
        omega
    · have hrn' : r = n := by omega
      subst hrn'
      rw [List.getD_append_right _ _ _ _ ?_]
      · rw [length_flatMap_range_map]
        simp only [List.flatMap_cons, List.flatMap_nil, List.append_nil,
          Nat.add_sub_cancel_left]
        have hc' : c < ((List.range cols).map fun col => g r col).length := by
          simpa using hc
        rw [List.getD_eq_getElem _ _ hc', List.getElem_map, List.getElem_range]
      · rw [length_flatMap_range_map]
        omega

theorem unique_cell (pw : ℚ) (hpw : 0 < pw) (n : ℕ) (x : ℚ) (hx0 : 0 ≤ x)
    (hxn : x < (n : ℚ) * pw) :
    ∃! c : ℕ, c < n ∧ (c : ℚ) * pw ≤ x ∧ x < ((c : ℚ) + 1) * pw := by
  have hq0 : 0 ≤ ⌊x / pw⌋ := Int.floor_nonneg.mpr (div_nonneg hx0 hpw.le)
  have hqn : ⌊x / pw⌋ < (n : ℤ) := by
    rw [Int.floor_lt]
    push_cast
    rw [div_lt_iff₀ hpw]
    linarith
  have hcast : ((⌊x / pw⌋.toNat : ℕ) : ℚ) = ((⌊x / pw⌋ : ℤ) : ℚ) := by
    norm_cast
    omega
  refine ⟨⌊x / pw⌋.toNat, ⟨by omega, ?_, ?_⟩, ?_⟩
  · rw [hcast, ← le_div_iff₀ hpw]
    exact Int.floor_le _
  · rw [hcast, ← div_lt_iff₀ hpw]
    exact Int.lt_floor_add_one _
  · intro d hd
    have hfloor : ⌊x / pw⌋ = (d : ℤ) := by
      rw [Int.floor_eq_iff]
      constructor
      · push_cast
        rw [le_div_iff₀ hpw]
        exact hd.2.1
      · push_cast
        rw [div_lt_iff₀ hpw]
        linarith [hd.2.2]
    omega

/-- C8: for `rows, cols ≥ 1` (and a positive image and scale factor), slicing yields
exactly `rows * cols` pieces enumerated row-major — the piece at index
`row * cols + col` is the cell piece of `(row, col)`, with uniform size
`(scaledWidth / cols, scaledHeight / rows)` and home position
`(col * pieceWidth, row * pieceHeight)` — and the home rectangles tile the scaled
image exactly: every point of it lies in exactly one piece's half-open home
rectangle. -/
theorem createPuzzlePieces_spec (w h sf : ℚ) (rows cols : ℕ)
    (hrows : 1 ≤ rows) (hcols : 1 ≤ cols) (hw : 0 < w) (hh : 0 < h) (hsf : 0 < sf) :
    (createPuzzlePieces w h rows cols sf).length = rows * cols ∧
    (∀ r c, r < rows → c < cols →
      (createPuzzlePieces w h rows cols sf).getD (r * cols + c) default =
        cellPiece w h rows cols sf r c ∧
      ((createPuzzlePieces w h rows cols sf).getD (r * cols + c) default).originalX =
        (c : ℚ) * (w * sf / cols) ∧
      ((createPuzzlePieces w h rows cols sf).getD (r * cols + c) default).originalY =
        (r : ℚ) * (h * sf / rows) ∧
      ((createPuzzlePieces w h rows cols sf).getD (r * cols + c) default).width =
        w * sf / cols ∧
      ((createPuzzlePieces w h rows cols sf).getD (r * cols + c) default).height =
        h * sf / rows) ∧
    (∀ x y : ℚ, 0 ≤ x → x < w * sf → 0 ≤ y → y < h * sf →
      ∃! i : ℕ, i < rows * cols ∧
        ((createPuzzlePieces w h rows cols sf).getD i default).originalX ≤ x ∧
        x < ((createPuzzlePieces w h rows cols sf).getD i default).originalX +
          ((createPuzzlePieces w h rows cols sf).getD i default).width ∧
        ((createPuzzlePieces w h rows cols sf).getD i default).originalY ≤ y ∧
        y < ((createPuzzlePieces w h rows cols sf).getD i default).originalY +
          ((createPuzzlePieces w h rows cols sf).getD i default).height) := by
  have hcq : (0 : ℚ) < (cols : ℚ) := by exact_mod_cast Nat.lt_of_lt_of_le Nat.zero_lt_one hcols
  have hrq : (0 : ℚ) < (rows : ℚ) := by exact_mod_cast Nat.lt_of_lt_of_le Nat.zero_lt_one hrows
  have hpw : (0 : ℚ) < w / cols * sf := mul_pos (div_pos hw hcq) hsf
  have hph : (0 : ℚ) < h / rows * sf := mul_pos (div_pos hh hrq) hsf
  have hcpw : (cols : ℚ) * (w / cols * sf) = w * sf := by field_simp
  have hrph : (rows : ℚ) * (h / rows * sf) = h * sf := by field_simp
  have hgd : ∀ r c, r < rows → c < cols →
      (createPuzzlePieces w h rows cols sf).getD (r * cols + c) default =
        cellPiece w h rows cols sf r c := fun r c hr hc =>
    getD_flatMap_range_map (cellPiece w h rows cols sf) cols rows r c hr hc
  refine ⟨length_createPuzzlePieces w h rows cols sf, ?_, ?_⟩
  · intro r c hr hc
    refine ⟨hgd r c hr hc, ?_, ?_, ?_, ?_⟩ <;> rw [hgd r c hr hc] <;>
      simp only [cellPiece] <;> ring
  · intro x y hx0 hxw hy0 hyh
    obtain ⟨c, ⟨hcn, hcle, hclt⟩, hcu⟩ :=
      unique_cell (w / cols * sf) hpw cols x hx0 (by rw [hcpw]; exact hxw)
    obtain ⟨r, ⟨hrn, hrle, hrlt⟩, hru⟩ :=
      unique_cell (h / rows * sf) hph rows y hy0 (by rw [hrph]; exact hyh)
    have hi : r * cols + c < rows * cols := by
      have h1 : (r + 1) * cols ≤ rows * cols := Nat.mul_le_mul_right cols hrn
      have h2 : r * cols + c < (r + 1) * cols := by
        rw [Nat.add_mul, Nat.one_mul]
        omega
      omega
    refine ⟨r * cols + c, ⟨hi, ?_, ?_, ?_, ?_⟩, ?_⟩
    · rw [hgd r c hrn hcn]
      exact hcle
    · rw [hgd r c hrn hcn]
      simp only [cellPiece]
      have : ((c : ℚ) + 1) * (w / cols * sf) = (c : ℚ) * (w / cols * sf) +
          w / cols * sf := by ring
      linarith
    · rw [hgd r c hrn hcn]
      exact hrle
    · rw [hgd r c hrn hcn]
      simp only [cellPiece]
      have : ((r : ℚ) + 1) * (h / rows * sf) = (r : ℚ) * (h / rows * sf) +
          h / rows * sf := by ring
      linarith
    · intro j hj
      obtain ⟨hjlt, hjx1, hjx2, hjy1, hjy2⟩ := hj
      have hcj : j % cols < cols := Nat.mod_lt _ (by omega)
      have hrj : j / cols < rows := (Nat.div_lt_iff_lt_mul (by omega)).mpr hjlt
      have hdm := Nat.div_add_mod j cols
      have hdecomp : j / cols * cols + j % cols = j := by
        rw [Nat.mul_comm] at hdm
        exact hdm
      have hgdj := hgd (j / cols) (j % cols) hrj hcj
      rw [hdecomp] at hgdj
      rw [hgdj] at hjx1 hjx2 hjy1 hjy2
      simp only [cellPiece] at hjx1 hjx2 hjy1 hjy2
      have hcueq : j % cols = c := by
        refine hcu (j % cols) ⟨hcj, hjx1, ?_⟩
        have : ((j % cols : ℕ) : ℚ) * (w / cols * sf) + w / cols * sf =
            (((j % cols : ℕ) : ℚ) + 1) * (w / cols * sf) := by ring
        linarith
      have hrueq : j / cols = r := by
        refine hru (j / cols) ⟨hrj, hjy1, ?_⟩
        have : ((j / cols : ℕ) : ℚ) * (h / rows * sf) + h / rows * sf =
            (((j / cols : ℕ) : ℚ) + 1) * (h / rows * sf) := by ring
        linarith
      rw [← hrueq, ← hcueq]
      exact hdecomp.symm

/-- Witness for C8 on a 2×2 grid of a 2×2 image at scale 1. -/
theorem createPuzzlePieces_spec_witness :
    (1 : ℕ) ≤ 2 ∧ (0 : ℚ) < 2 ∧ (0 : ℚ) < 1 ∧
    ((createPuzzlePieces 2 2 2 2 1).length = 2 * 2 ∧
     (∀ r c, r < 2 → c < 2 →
       (createPuzzlePieces 2 2 2 2 1).getD (r * 2 + c) default =
         cellPiece 2 2 2 2 1 r c ∧
       ((createPuzzlePieces 2 2 2 2 1).getD (r * 2 + c) default).originalX =
         (c : ℚ) * (2 * 1 / 2) ∧
       ((createPuzzlePieces 2 2 2 2 1).getD (r * 2 + c) default).originalY =
         (r : ℚ) * (2 * 1 / 2) ∧
       ((createPuzzlePieces 2 2 2 2 1).getD (r * 2 + c) default).width = 2 * 1 / 2 ∧
       ((createPuzzlePieces 2 2 2 2 1).getD (r * 2 + c) default).height = 2 * 1 / 2) ∧
     (∀ x y : ℚ, 0 ≤ x → x < 2 * 1 → 0 ≤ y → y < 2 * 1 →
       ∃! i : ℕ, i < 2 * 2 ∧
         ((createPuzzlePieces 2 2 2 2 1).getD i default).originalX ≤ x ∧
         x < ((createPuzzlePieces 2 2 2 2 1).getD i default).originalX +
           ((createPuzzlePieces 2 2 2 2 1).getD i default).width ∧
         ((createPuzzlePieces 2 2 2 2 1).getD i default).originalY ≤ y ∧
         y < ((createPuzzlePieces 2 2 2 2 1).getD i default).originalY +
           ((createPuzzlePieces 2 2 2 2 1).getD i default).height)) :=
  ⟨by norm_num, by norm_num, by norm_num,
   createPuzzlePieces_spec 2 2 1 2 2 (by norm_num) (by norm_num) (by norm_num)
     (by norm_num) (by norm_num)⟩
